import Mathlib

/-!
# Verification of `yew-agent`'s `use_bridge` hook

A shallow embedding of `src/packages/yew-agent/src/hooks.rs`.

The source is a single Rust file defining:

* `UseBridgeHandle<T>` — a struct wrapping `inner: Rc<RefCell<Box<dyn Bridge<T>>>>`,
  with `send(&self, msg)` = `{ let mut bridge = self.inner.borrow_mut(); bridge.send(msg); }`
  and a `Clone` impl cloning the `Rc`.
* `use_bridge(on_output)` — a hook that
  1. wraps `on_output` in an `Rc`,
  2. obtains `on_output_ref = use_mut_ref(move || on_output_clone)` — a persistent
     `Rc<RefCell<Rc<F>>>` initialized on the first render pass with the first
     handler,
  3. refreshes it every pass: `{ let mut r = on_output_ref.borrow_mut(); *r = on_output; }`,
  4. obtains `bridge = use_mut_ref(move || T::bridge(Rc::new(move |output| {
       let on_output = on_output_ref.borrow().clone(); on_output(output); })))`,
  5. returns `UseBridgeHandle { inner: bridge }`.

We model payloads (`T::Input`, `T::Output`) and handler closures by natural
numbers (the core never inspects payloads, and a handler is identified by which
render pass supplied it).  `RefCell` is modelled with Rust's borrow flag
(`0` = free, positive = that many shared borrows, negative = exclusively
borrowed); `borrow`/`borrow_mut` fail with the corresponding panic when the
flag disallows them, exactly as `RefCell` panics at runtime.
-/

/-- A Rust `RefCell`: a value plus the borrow flag.  `flag = 0` means no
outstanding borrow, `flag > 0` counts live shared borrows, `flag < 0` means an
exclusive borrow is live. -/
structure RefCell (α : Type) where
  value : α
  flag : Int
deriving Repr, DecidableEq

/-- The two `RefCell` runtime failures. -/
inductive RustPanic where
  /-- Raised by `RefCell::borrow_mut` called while any borrow is outstanding. -/
  | borrowMutError
  /-- Raised by `RefCell::borrow` called while an exclusive borrow is outstanding. -/
  | borrowError
deriving Repr, DecidableEq

namespace RefCell

/-- The method `RefCell::borrow_mut`: takes the exclusive borrow; panics if any borrow is
outstanding. -/
def borrow_mut (c : RefCell α) : Except RustPanic (RefCell α) :=
  if c.flag = 0 then .ok { c with flag := -1 } else .error .borrowMutError

/-- Dropping the guard returned by `borrow_mut`: the flag returns to free. -/
def releaseMut (c : RefCell α) : RefCell α :=
  { c with flag := 0 }

/-- The method `RefCell::borrow`: takes a shared borrow; panics if an exclusive borrow is
outstanding. -/
def borrow (c : RefCell α) : Except RustPanic (RefCell α) :=
  if 0 ≤ c.flag then .ok { c with flag := c.flag + 1 } else .error .borrowError

/-- Dropping a guard returned by `borrow`: one shared borrow released. -/
def releaseShared (c : RefCell α) : RefCell α :=
  { c with flag := c.flag - 1 }

end RefCell

/-!
## The callback slot

The cell `on_output_ref : Rc<RefCell<Rc<F>>>` holds the currently active output
handler (one handler at all times — the content type is `Rc<F>`, not an
`Option`).  We model its content by the `Nat` identifying the handler.
-/

namespace CallbackSlot

/-- The refresh block run on every render pass:
`{ let mut on_output_ref = on_output_ref.borrow_mut(); *on_output_ref = on_output; }`.
The exclusive borrow is taken, the content overwritten, and the guard dropped
at the end of the block. -/
def replace (s : RefCell Nat) (h : Nat) : Except RustPanic (RefCell Nat) :=
  match s.borrow_mut with
  | .error e => .error e
  | .ok s1 => .ok (RefCell.releaseMut { s1 with value := h })

/-- The first statement of the forwarding closure:
`let on_output = on_output_ref.borrow().clone();`.
A shared borrow is taken, the `Rc<F>` inside is cloned out, and the borrow
guard (a temporary) is dropped at the end of the statement.  Returns the copied
handler and the slot as it stands when the next statement runs. -/
def read_and_clone (s : RefCell Nat) : Except RustPanic (Nat × RefCell Nat) :=
  match s.borrow with
  | .error e => .error e
  | .ok s1 => .ok (s1.value, RefCell.releaseShared s1)

end CallbackSlot

/-- The closure passed to `T::bridge`:
`move |output| { let on_output = on_output_ref.borrow().clone(); on_output(output); }`.
It copies the current handler out of the slot, then the handler is invoked with
`output` — with no borrow of the slot held.  Returns the invocation performed
(handler, output) and the slot state at the moment the handler body runs. -/
def forwardingAdapter (s : RefCell Nat) (output : Nat) :
    Except RustPanic ((Nat × Nat) × RefCell Nat) :=
  match CallbackSlot.read_and_clone s with
  | .error e => .error e
  | .ok (h, s1) => .ok ((h, output), s1)

/-- C1: For every delivery of an Output through the forwarding adapter from an
unborrowed slot, the read succeeds and the slot is back to `flag = 0` (no
exclusive lock held) by the time the handler runs; hence a `replace` triggered
synchronously by the handler succeeds without panic, and the invocation already
in flight uses the handler value `s.value` it was given, unaffected by that
replace. -/
theorem adapter_releases_lock_before_handler (s : RefCell Nat) (o h2 : Nat)
    (hfree : s.flag = 0) :
    forwardingAdapter s o = .ok ((s.value, o), { value := s.value, flag := 0 }) ∧
    CallbackSlot.replace { value := s.value, flag := 0 } h2 =
      .ok { value := h2, flag := 0 } := by
  constructor
  · simp [forwardingAdapter, CallbackSlot.read_and_clone, RefCell.borrow, hfree,
      RefCell.releaseShared]
  · simp [CallbackSlot.replace, RefCell.borrow_mut, RefCell.releaseMut]

/-- Witness for `adapter_releases_lock_before_handler` at slot `⟨7, 0⟩`,
output `3`, replacement handler `9`. -/
theorem adapter_releases_lock_before_handler_witness :
    forwardingAdapter ⟨7, 0⟩ 3 = .ok ((7, 3), ⟨7, 0⟩) ∧
    CallbackSlot.replace ⟨7, 0⟩ 9 = .ok ⟨9, 0⟩ :=
  adapter_releases_lock_before_handler ⟨7, 0⟩ 3 9 rfl

/-!
## Render-pass / delivery semantics

One component instance re-renders with a handler per pass and receives Output
messages through the forwarding adapter in between.  `use_mut_ref` (the yew
persist-across-passes primitive consumed by the hook) is modelled by an
`Option`-valued field of the persistent hook state: `none` before the first
pass; on the first pass the factory runs once and the result is stored; later
passes return the stored cell unchanged.
-/

/-- The connection object produced by `T::bridge`.  `id` is its identity (the
allocation number); `sent` is the list of transport-observed send calls. -/
structure BridgeConn where
  id : Nat
  sent : List Nat
deriving Repr, DecidableEq

/-- The transport send `Bridge::send` as the transport observes it: exactly one send appended, in
call order, with the argument unchanged. -/
def BridgeConn.send (c : BridgeConn) (msg : Nat) : BridgeConn :=
  { c with sent := c.sent ++ [msg] }

/-- Persistent hook state of one component instance: the two `use_mut_ref`
cells (both `none` before the first render pass), plus an instrumentation
counter of how many times `T::bridge` (the transport connect) has run. -/
structure HookState where
  on_output_ref : Option (RefCell Nat)
  bridge : Option (RefCell BridgeConn)
  connectCount : Nat
deriving Repr, DecidableEq

/-- The whole observable system: the hook state plus the log of handler
invocations performed by the forwarding adapter, as (handler, output) pairs in
invocation order. -/
structure SysState where
  hook : HookState
  invocations : List (Nat × Nat)
deriving Repr, DecidableEq

/-- A freshly mounted component instance: nothing persisted yet. -/
def SysState.initial : SysState :=
  ⟨⟨none, none, 0⟩, []⟩

/-- What can happen to the instance: a render pass supplying handler `h`, or
the transport delivering output `o` to the forwarding adapter. -/
inductive Event where
  | render (h : Nat)
  | deliver (o : Nat)
deriving Repr, DecidableEq

/-- A step can fail by a `RefCell` panic, or because an output is delivered
with no connection in existence (impossible in the real system: the transport
only delivers through a sink registered at `T::bridge` time). -/
inductive StepError where
  | panic (p : RustPanic)
  | noConnection
deriving Repr, DecidableEq

/-- One render pass, mirroring the body of `use_bridge` with handler `h`:

1. `let on_output_ref = use_mut_ref(move || on_output_clone);` — first pass
   stores a cell holding the first handler, later passes reuse the stored cell;
2. the refresh block `*on_output_ref.borrow_mut() = on_output;`;
3. `let bridge = use_mut_ref(move || T::bridge(forwardingAdapter));` — first
   pass connects (once), later passes reuse the stored connection cell;
4. `UseBridgeHandle { inner: bridge }` is returned (the handle is the bridge
   cell itself, left in the state). -/
def renderPass (st : SysState) (h : Nat) : Except StepError SysState :=
  let oref : RefCell Nat :=
    match st.hook.on_output_ref with
    | none => ⟨h, 0⟩
    | some c => c
  match CallbackSlot.replace oref h with
  | .error p => .error (.panic p)
  | .ok oref1 =>
    let (bridge1, cc1) :=
      match st.hook.bridge with
      | none => (⟨⟨st.hook.connectCount, []⟩, 0⟩, st.hook.connectCount + 1)
      | some b => (b, st.hook.connectCount)
    .ok ⟨⟨some oref1, some bridge1, cc1⟩, st.invocations⟩

/-- The transport delivers output `o` to the registered sink: the forwarding
adapter copies the current handler out of the slot and invokes it once with
`o`; the invocation is logged. -/
def deliverOutput (st : SysState) (o : Nat) : Except StepError SysState :=
  match st.hook.on_output_ref, st.hook.bridge with
  | some oref, some b =>
    match forwardingAdapter oref o with
    | .error p => .error (.panic p)
    | .ok (inv, oref1) =>
      .ok ⟨⟨some oref1, some b, st.hook.connectCount⟩, st.invocations ++ [inv]⟩
  | _, _ => .error .noConnection

/-- Process one event. -/
def stepEvent (st : SysState) : Event → Except StepError SysState
  | .render h => renderPass st h
  | .deliver o => deliverOutput st o

/-- Process a list of events in order, stopping at the first failure. -/
def runEvents (st : SysState) : List Event → Except StepError SysState
  | [] => .ok st
  | e :: es =>
    match stepEvent st e with
    | .error err => .error err
    | .ok st1 => runEvents st1 es

/-- The handler of the most recent render pass (`cur` before the events). -/
def lastHandler (cur : Nat) : List Event → Nat
  | [] => cur
  | .render h :: es => lastHandler h es
  | .deliver _ :: es => lastHandler cur es

/-- Spec-side trace (written from the spec's words, for comparison with the
code's invocation log): each delivered Output is processed by exactly one
invocation of the then-current handler, with that same message, in delivery
order — no buffering, dropping, reordering or coalescing. -/
def specTrace (cur : Nat) : List Event → List (Nat × Nat)
  | [] => []
  | .render h :: es => specTrace h es
  | .deliver o :: es => (cur, o) :: specTrace cur es

/-- The canonical committed state after at least one render pass: slot content
`cur`, connection `⟨0, []⟩` allocated by the single connect, invocation log
`inv`. -/
def committedState (cur : Nat) (inv : List (Nat × Nat)) : SysState :=
  ⟨⟨some ⟨cur, 0⟩, some ⟨⟨0, []⟩, 0⟩, 1⟩, inv⟩

/-- Running any events from a committed state never fails, keeps the single
connection `⟨0, []⟩`, leaves the slot holding the latest handler, and extends
the invocation log exactly by the spec trace. -/
theorem runEvents_committed (es : List Event) (cur : Nat) (inv : List (Nat × Nat)) :
    runEvents (committedState cur inv) es =
      .ok (committedState (lastHandler cur es) (inv ++ specTrace cur es)) := by
  induction es generalizing cur inv with
  | nil => simp [runEvents, lastHandler, specTrace]
  | cons e es ih =>
    cases e with
    | render h =>
      simp only [runEvents, stepEvent, renderPass, committedState,
        CallbackSlot.replace, RefCell.borrow_mut, RefCell.releaseMut]
      simpa [committedState, lastHandler, specTrace] using ih h inv
    | deliver o =>
      simp only [runEvents, stepEvent, deliverOutput, committedState,
        forwardingAdapter, CallbackSlot.read_and_clone, RefCell.borrow,
        RefCell.releaseShared]
      simpa [committedState, lastHandler, specTrace] using
        ih cur (inv ++ [(cur, o)])

/-- The first render pass from a fresh instance commits: the slot is created
holding the first handler, the connect runs (allocating connection `0`), and
the refresh overwrites the slot with that same first handler. -/
theorem renderPass_initial (h : Nat) :
    renderPass SysState.initial h = .ok (committedState h []) := by
  simp [renderPass, SysState.initial, committedState, CallbackSlot.replace,
    RefCell.borrow_mut, RefCell.releaseMut]

/-- Any run that begins with a render pass succeeds and lands in the committed
state for the latest handler with the spec trace as its invocation log. -/
theorem runEvents_from_start (h : Nat) (es : List Event) :
    runEvents SysState.initial (.render h :: es) =
      .ok (committedState (lastHandler h es) (specTrace h es)) := by
  have h1 := renderPass_initial h
  simp only [runEvents, stepEvent, h1]
  simpa using runEvents_committed es h []

/-- The trace `specTrace` splits over event concatenation, the second half starting from
the latest handler of the first half. -/
theorem specTrace_append (cur : Nat) (xs ys : List Event) :
    specTrace cur (xs ++ ys) = specTrace cur xs ++ specTrace (lastHandler cur xs) ys := by
  induction xs generalizing cur with
  | nil => simp [specTrace, lastHandler]
  | cons e xs ih =>
    cases e with
    | render h => simp [specTrace, lastHandler, ih]
    | deliver o => simp [specTrace, lastHandler, ih]

/-- Holds (`true`) iff no event of the list is a render pass. -/
def renderFree (es : List Event) : Bool :=
  es.all fun e =>
    match e with
    | .render _ => false
    | .deliver _ => true

/-- With no render pass among the events, the latest handler is unchanged. -/
theorem lastHandler_of_renderFree (cur : Nat) (es : List Event)
    (hf : renderFree es = true) : lastHandler cur es = cur := by
  induction es with
  | nil => rfl
  | cons e es ih =>
    cases e with
    | render h => simp [renderFree, List.all_cons] at hf
    | deliver o =>
      simp only [renderFree, List.all_cons, Bool.and_eq_true] at hf
      exact ih hf.2

/-- The last element of a list ending in an explicit singleton. -/
theorem getLast?_append_singleton (l : List α) (a : α) :
    (l ++ [a]).getLast? = some a := by
  induction l with
  | nil => rfl
  | cons x l ih =>
    cases l with
    | nil => rfl
    | cons y l => simpa [List.cons_append] using ih

/-- C2: over any run consisting only of render passes (N ≥ 1 of them, arbitrary
handlers), the transport connect (`T::bridge`) has run exactly once — on the
first pass — and the connection cell wrapped by the returned handle is the same
object in the shorter run and in any extension of it. -/
theorem use_bridge_connects_once (h : Nat) (hs hs' : List Nat) :
    ∃ st st',
      runEvents SysState.initial ((h :: hs).map Event.render) = .ok st ∧
      runEvents SysState.initial ((h :: (hs ++ hs')).map Event.render) = .ok st' ∧
      st.hook.connectCount = 1 ∧ st'.hook.connectCount = 1 ∧
      st.hook.bridge = some ⟨⟨0, []⟩, 0⟩ ∧ st'.hook.bridge = st.hook.bridge := by
  refine ⟨committedState (lastHandler h (hs.map Event.render))
      (specTrace h (hs.map Event.render)),
    committedState (lastHandler h ((hs ++ hs').map Event.render))
      (specTrace h ((hs ++ hs').map Event.render)), ?_, ?_, ?_, ?_, ?_, ?_⟩
  · simpa using runEvents_from_start h (hs.map Event.render)
  · simpa using runEvents_from_start h ((hs ++ hs').map Event.render)
  all_goals simp [committedState]

/-- C3: a delivery that happens after the pass installing `hk` commits, with no
further render pass committed in between, is processed by `hk` — whatever
renders and deliveries came before, and whichever handler each earlier pass
supplied. -/
theorem delivery_processed_by_latest_handler (h hk o : Nat) (es mid : List Event)
    (hmid : renderFree mid = true) :
    ∃ st,
      runEvents SysState.initial
        (.render h :: (es ++ .render hk :: (mid ++ [.deliver o]))) = .ok st ∧
      st.invocations.getLast? = some (hk, o) := by
  refine ⟨_, runEvents_from_start h (es ++ .render hk :: (mid ++ [.deliver o])), ?_⟩
  have h1 : specTrace h (es ++ .render hk :: (mid ++ [.deliver o])) =
      (specTrace h es ++ specTrace hk mid) ++ [(hk, o)] := by
    rw [specTrace_append]
    simp only [specTrace]
    rw [specTrace_append, lastHandler_of_renderFree hk mid hmid]
    simp [specTrace]
  simp only [committedState, h1]
  exact getLast?_append_singleton _ _

/-- Witness for `delivery_processed_by_latest_handler`: after a first pass with
handler `1`, a delivery of `4`, a second pass with handler `2` and a further
delivery of `9`, the delivery of `5` is processed by handler `2`. -/
theorem delivery_processed_by_latest_handler_witness :
    ∃ st,
      runEvents SysState.initial
        (.render 1 :: ([.deliver 4] ++ .render 2 :: ([.deliver 9] ++ [.deliver 5]))) = .ok st ∧
      st.invocations.getLast? = some (2, 5) :=
  delivery_processed_by_latest_handler 1 2 5 [.deliver 4] [.deliver 9] (by decide)

/-- C4: the invocation log produced by the forwarding adapter is exactly the
spec trace: one invocation of the then-current handler per delivered output,
with the same message, in delivery order — nothing buffered, dropped, reordered
or coalesced. -/
theorem adapter_invocations_exact (h : Nat) (es : List Event) :
    ∃ st,
      runEvents SysState.initial (.render h :: es) = .ok st ∧
      st.invocations = specTrace h es :=
  ⟨_, runEvents_from_start h es, rfl⟩

/-- C9: the slot is created on the first pass holding the handler supplied
then; each pass's refresh fully overwrites the content with that pass's
handler; after the first pass the slot is always `some` cell holding exactly
one handler — the latest one. -/
theorem callback_slot_holds_latest_handler (h : Nat) (es : List Event) :
    renderPass SysState.initial h = .ok (committedState h []) ∧
    ∃ st,
      runEvents SysState.initial (.render h :: es) = .ok st ∧
      st.hook.on_output_ref = some ⟨lastHandler h es, 0⟩ :=
  ⟨renderPass_initial h, _, runEvents_from_start h es, rfl⟩

/-!
## The public handle: `send`, `Clone`, reentrancy, teardown

`UseBridgeHandle::send` is
`pub fn send(&self, msg: T::Input) { let mut bridge = self.inner.borrow_mut(); bridge.send(msg); }`:
the exclusive borrow guard `bridge` is acquired before the transport send and
lives until after it — it is held for the entire duration of `bridge.send(msg)`.
-/

namespace UseBridgeHandle

/-- The method `UseBridgeHandle::send`: acquire the exclusive borrow of the shared cell,
perform the transport send while it is held, drop the guard afterwards. -/
def send (cell : RefCell BridgeConn) (msg : Nat) : Except RustPanic (RefCell BridgeConn) :=
  match cell.borrow_mut with
  | .error e => .error e
  | .ok c1 => .ok (RefCell.releaseMut { c1 with value := c1.value.send msg })

end UseBridgeHandle

/-- A sequence of `send` calls issued one after another on handles wrapping the
same cell. -/
def sendAll (cell : RefCell BridgeConn) : List Nat → Except RustPanic (RefCell BridgeConn)
  | [] => .ok cell
  | x :: xs =>
    match UseBridgeHandle.send cell x with
    | .error e => .error e
    | .ok c1 => sendAll c1 xs

/-- C5: a sequence of `send` calls on an unborrowed cell all succeed, and the
transport observes exactly those arguments, unchanged, appended in the call
order issued — one transport send per handle send, no retry, batching or
transformation. -/
theorem send_forwards_in_order (cell : RefCell BridgeConn) (xs : List Nat)
    (hfree : cell.flag = 0) :
    sendAll cell xs = .ok ⟨⟨cell.value.id, cell.value.sent ++ xs⟩, 0⟩ := by
  induction xs generalizing cell with
  | nil =>
    obtain ⟨⟨i, s⟩, f⟩ := cell
    simp only at hfree
    simp [sendAll, hfree]
  | cons x xs ih =>
    have h1 : UseBridgeHandle.send cell x =
        .ok ⟨⟨cell.value.id, cell.value.sent ++ [x]⟩, 0⟩ := by
      simp [UseBridgeHandle.send, RefCell.borrow_mut, hfree, RefCell.releaseMut,
        BridgeConn.send]
    simp only [sendAll, h1]
    simpa using ih ⟨⟨cell.value.id, cell.value.sent ++ [x]⟩, 0⟩ rfl

/-- Witness for `send_forwards_in_order`: three sends on a fresh connection. -/
theorem send_forwards_in_order_witness :
    sendAll ⟨⟨0, []⟩, 0⟩ [4, 2, 7] = .ok ⟨⟨0, [4, 2, 7]⟩, 0⟩ :=
  send_forwards_in_order ⟨⟨0, []⟩, 0⟩ [4, 2, 7] rfl

/-!
For C10 the exclusive borrow taken by `send` must be observed *during* the
transport send: `sendWithReentrantSend` is the scenario in which, while
`send x` holds the guard, consumer code reached synchronously from inside the
transport send calls `send y` on a handle sharing the same cell.
-/

/-- A `send x` during whose transport send a nested `send y` is issued on the
same shared cell (the guard of the outer send still being alive). -/
def sendWithReentrantSend (cell : RefCell BridgeConn) (x y : Nat) :
    Except RustPanic (RefCell BridgeConn) :=
  match cell.borrow_mut with
  | .error e => .error e
  | .ok c1 =>
    match UseBridgeHandle.send c1 y with
    | .error e => .error e
    | .ok c2 => .ok (RefCell.releaseMut { c2 with value := c2.value.send x })

/-- C10: `send` takes the exclusive borrow of the shared cell (flag goes to
`-1`) and holds it across the transport send; a nested `send` issued on any
handle of the same Session while that borrow is held panics with the
`borrow_mut` error instead of being forwarded. -/
theorem send_reentrant_send_panics (cell : RefCell BridgeConn) (x y : Nat)
    (hfree : cell.flag = 0) :
    cell.borrow_mut = .ok { cell with flag := -1 } ∧
    UseBridgeHandle.send { cell with flag := -1 } y = .error .borrowMutError ∧
    sendWithReentrantSend cell x y = .error .borrowMutError := by
  refine ⟨?_, ?_, ?_⟩
  · simp [RefCell.borrow_mut, hfree]
  · simp [UseBridgeHandle.send, RefCell.borrow_mut]
  · simp [sendWithReentrantSend, RefCell.borrow_mut, hfree, UseBridgeHandle.send]

/-- Witness for `send_reentrant_send_panics` on a fresh connection. -/
theorem send_reentrant_send_panics_witness :
    RefCell.borrow_mut (⟨⟨0, []⟩, 0⟩ : RefCell BridgeConn) = .ok ⟨⟨0, []⟩, -1⟩ ∧
    UseBridgeHandle.send ⟨⟨0, []⟩, -1⟩ 5 = .error .borrowMutError ∧
    sendWithReentrantSend ⟨⟨0, []⟩, 0⟩ 3 5 = .error .borrowMutError :=
  send_reentrant_send_panics ⟨⟨0, []⟩, 0⟩ 3 5 rfl

/-!
## Shared ownership: `Clone` and teardown

The `Clone` impl is `Self { inner: self.inner.clone() }` — an `Rc::clone`: the
strong count of the one shared allocation grows by one; no new cell and no new
connection is created.  A `Session` is that shared allocation: the single
bridge cell, the number of live owners, and an instrumentation counter of
teardown calls on the connection.
-/

/-- The shared allocation behind all handles of one component instance: the one
`RefCell<Box<dyn Bridge>>`, its `Rc` strong count, and how many times the
connection's teardown has run. -/
structure Session where
  cell : RefCell BridgeConn
  strong : Nat
  teardownCount : Nat
deriving Repr, DecidableEq

/-- The impl `Clone for UseBridgeHandle`: `Rc::clone` — the strong count grows by
one; the cell (and so the connection) is untouched. -/
def Session.cloneHandle (s : Session) : Session :=
  { s with strong := s.strong + 1 }

/-- Modelled from the spec: the `Drop` of the `Box<dyn Bridge>` held in the
cell — the transport's disconnect/teardown — lives outside `hooks.rs` (the
source under study only stores the box).  Per the spec it runs when the last
owning reference is released, exactly once. -/
def Session.teardown (s : Session) : Session :=
  { s with teardownCount := s.teardownCount + 1 }

/-- Dropping one owner (`Rc` drop): the strong count falls by one; if this was
the last owner, the boxed connection is dropped, running teardown. -/
def Session.dropHandle (s : Session) : Session :=
  if s.strong = 1 then Session.teardown { s with strong := 0 }
  else { s with strong := s.strong - 1 }

/-- An ownership event on the Session: cloning a handle or dropping one. -/
inductive OwnerOp where
  | cloneHandle
  | dropHandle
deriving Repr, DecidableEq

/-- Apply one ownership event. -/
def Session.stepOwner (s : Session) : OwnerOp → Session
  | .cloneHandle => s.cloneHandle
  | .dropHandle => s.dropHandle

/-- An ownership event can only be performed through a live owner: at each
point of the sequence at least one owner must remain. -/
def validOps (strong : Nat) : List OwnerOp → Bool
  | [] => true
  | .cloneHandle :: ops => decide (0 < strong) && validOps (strong + 1) ops
  | .dropHandle :: ops => decide (0 < strong) && validOps (strong - 1) ops

/-- C6: cloning a handle leaves the cell — hence the connection and everything
already sent on it — untouched, adds exactly one owner, triggers no teardown,
and a `send` through the clone is the very same operation on the very same
cell as a `send` through the original, appending exactly one transport send. -/
theorem clone_shares_connection (s : Session) (x : Nat) (hfree : s.cell.flag = 0) :
    s.cloneHandle.cell = s.cell ∧
    s.cloneHandle.strong = s.strong + 1 ∧
    s.cloneHandle.teardownCount = s.teardownCount ∧
    UseBridgeHandle.send s.cloneHandle.cell x = UseBridgeHandle.send s.cell x ∧
    UseBridgeHandle.send s.cloneHandle.cell x =
      .ok ⟨⟨s.cell.value.id, s.cell.value.sent ++ [x]⟩, 0⟩ := by
  refine ⟨rfl, rfl, rfl, rfl, ?_⟩
  simp [Session.cloneHandle, UseBridgeHandle.send, RefCell.borrow_mut, hfree,
    RefCell.releaseMut, BridgeConn.send]

/-- Witness for `clone_shares_connection` on a one-owner session with a fresh
connection. -/
theorem clone_shares_connection_witness :
    (Session.cloneHandle ⟨⟨⟨0, []⟩, 0⟩, 1, 0⟩).cell = (⟨⟨0, []⟩, 0⟩ : RefCell BridgeConn) ∧
    (Session.cloneHandle ⟨⟨⟨0, []⟩, 0⟩, 1, 0⟩).strong = 2 ∧
    (Session.cloneHandle ⟨⟨⟨0, []⟩, 0⟩, 1, 0⟩).teardownCount = 0 ∧
    UseBridgeHandle.send (Session.cloneHandle ⟨⟨⟨0, []⟩, 0⟩, 1, 0⟩).cell 6 =
      UseBridgeHandle.send ⟨⟨0, []⟩, 0⟩ 6 ∧
    UseBridgeHandle.send (Session.cloneHandle ⟨⟨⟨0, []⟩, 0⟩, 1, 0⟩).cell 6 =
      .ok ⟨⟨0, [6]⟩, 0⟩ :=
  clone_shares_connection ⟨⟨⟨0, []⟩, 0⟩, 1, 0⟩ 6 rfl

/-- Auxiliary invariant for C7: from a live, not-yet-torn-down session, any
valid ownership sequence keeps the cell unchanged and ends with teardown
having run exactly once if no owner remains, and never otherwise. -/
theorem teardown_invariant (ops : List OwnerOp) (s : Session)
    (hlive : 1 ≤ s.strong) (hcnt : s.teardownCount = 0)
    (hv : validOps s.strong ops = true) :
    (ops.foldl Session.stepOwner s).cell = s.cell ∧
    (ops.foldl Session.stepOwner s).teardownCount =
      (if (ops.foldl Session.stepOwner s).strong = 0 then 1 else 0) := by
  induction ops generalizing s with
  | nil =>
    have h1 : ¬ s.strong = 0 := by omega
    simp [List.foldl, hcnt, h1]
  | cons op ops ih =>
    cases op with
    | cloneHandle =>
      simp only [validOps, Bool.and_eq_true, decide_eq_true_eq] at hv
      have := ih s.cloneHandle (by simp only [Session.cloneHandle]; omega)
        (by simp [Session.cloneHandle, hcnt]) (by simpa [Session.cloneHandle] using hv.2)
      simpa [List.foldl, Session.stepOwner, Session.cloneHandle] using this
    | dropHandle =>
      simp only [validOps, Bool.and_eq_true, decide_eq_true_eq] at hv
      by_cases hone : s.strong = 1
      · have hops : ops = [] := by
          cases ops with
          | nil => rfl
          | cons op2 ops2 =>
            exfalso
            have h2 := hv.2
            cases op2 <;> simp [validOps, hone] at h2
        subst hops
        simp [List.foldl, Session.stepOwner, Session.dropHandle, hone,
          Session.teardown, hcnt]
      · have h2 : s.dropHandle = { s with strong := s.strong - 1 } := by
          simp [Session.dropHandle, hone]
        have := ih s.dropHandle (by rw [h2]; simp only []; omega)
          (by rw [h2]; simpa using hcnt) (by rw [h2]; simpa using hv.2)
        simpa [List.foldl, Session.stepOwner, h2] using this

/-- C7: starting from the session created on the first render pass (one owner,
no teardown yet), any valid sequence of handle clones and drops leaves the
connection cell identical (no reconnection, no transition back to an
uninitialized state), and the teardown has run exactly once when the last
owner is gone and never while an owner remains. -/
theorem teardown_exactly_once_on_last_drop (ops : List OwnerOp) (c : BridgeConn)
    (hv : validOps 1 ops = true) :
    (ops.foldl Session.stepOwner ⟨⟨c, 0⟩, 1, 0⟩).cell = ⟨c, 0⟩ ∧
    (ops.foldl Session.stepOwner ⟨⟨c, 0⟩, 1, 0⟩).teardownCount =
      (if (ops.foldl Session.stepOwner ⟨⟨c, 0⟩, 1, 0⟩).strong = 0 then 1 else 0) :=
  teardown_invariant ops ⟨⟨c, 0⟩, 1, 0⟩ le_rfl rfl hv

/-- Witness for `teardown_exactly_once_on_last_drop`: clone once, drop the
original, drop the clone — the teardown runs exactly once, at the second
drop. -/
theorem teardown_exactly_once_on_last_drop_witness :
    ([OwnerOp.cloneHandle, OwnerOp.dropHandle, OwnerOp.dropHandle].foldl
        Session.stepOwner ⟨⟨⟨0, []⟩, 0⟩, 1, 0⟩).cell = ⟨⟨0, []⟩, 0⟩ ∧
    ([OwnerOp.cloneHandle, OwnerOp.dropHandle, OwnerOp.dropHandle].foldl
        Session.stepOwner ⟨⟨⟨0, []⟩, 0⟩, 1, 0⟩).teardownCount =
      (if ([OwnerOp.cloneHandle, OwnerOp.dropHandle, OwnerOp.dropHandle].foldl
          Session.stepOwner ⟨⟨⟨0, []⟩, 0⟩, 1, 0⟩).strong = 0 then 1 else 0) :=
  teardown_exactly_once_on_last_drop
    [OwnerOp.cloneHandle, OwnerOp.dropHandle, OwnerOp.dropHandle] ⟨0, []⟩ (by decide)

/-!
## Propagation of send failures

`Bridge::send` in the source returns unit; a transport that rejects a message
(e.g. a terminated worker) surfaces the rejection as a failure raised inside
the transport send.  The handle's `send` body contains no retry and no
catching construct, so whatever the transport raises crosses `send`
unchanged.
-/

/-- Modelled from the spec: a transport connection whose send operation may
reject a message.  `reject` says which failure, if any, the transport reports
for a message; `attempts` logs every transport-level send invocation (accepted
or rejected); `delivered` logs the accepted ones.  The send returns the
updated connection together with the failure it reports, if any. -/
structure FallibleConn (E : Type) where
  reject : Nat → Option E
  attempts : List Nat
  delivered : List Nat

/-- One transport-level send on a fallible connection. -/
def FallibleConn.send (c : FallibleConn E) (x : Nat) : FallibleConn E × Option E :=
  match c.reject x with
  | some e => ({ c with attempts := c.attempts ++ [x] }, some e)
  | none =>
      ({ c with attempts := c.attempts ++ [x], delivered := c.delivered ++ [x] }, none)

/-- The method `UseBridgeHandle::send` over a fallible connection: acquire the exclusive
borrow, perform the one transport send, release, and let the transport's
reported failure — if any — reach the caller unchanged (the body has no retry
and no handler for it). -/
def sendFallible (cell : RefCell (FallibleConn E)) (x : Nat) :
    Except RustPanic (RefCell (FallibleConn E) × Option E) :=
  match cell.borrow_mut with
  | .error e => .error e
  | .ok c1 =>
    let r := c1.value.send x
    .ok (RefCell.releaseMut { c1 with value := r.1 }, r.2)

/-- C8: when the transport rejects `x` with failure `e`, the caller of the
handle's `send` receives exactly `e`, at that very call; the transport was
invoked exactly once for `x` (no retry) and delivered nothing. -/
theorem send_failure_propagates (cell : RefCell (FallibleConn E)) (x : Nat) (e : E)
    (hfree : cell.flag = 0) (hrej : cell.value.reject x = some e) :
    sendFallible cell x =
      .ok (⟨{ cell.value with attempts := cell.value.attempts ++ [x] }, 0⟩, some e) := by
  simp [sendFallible, RefCell.borrow_mut, hfree, RefCell.releaseMut,
    FallibleConn.send, hrej]

/-- Witness for `send_failure_propagates`: a transport rejecting message `3`
with failure `42`. -/
theorem send_failure_propagates_witness :
    sendFallible
      (⟨⟨fun x => if x = 3 then some 42 else none, [], []⟩, 0⟩ : RefCell (FallibleConn Nat)) 3 =
      .ok (⟨⟨fun x => if x = 3 then some 42 else none, [3], []⟩, 0⟩, some 42) :=
  send_failure_propagates
    (⟨⟨fun x => if x = 3 then some 42 else none, [], []⟩, 0⟩ : RefCell (FallibleConn Nat))
    3 42 rfl (by simp)
